import Mathlib

/-!
Verification development for the OU investment modeler.

The Python sources (`monte_carlo.py`, `etf_fetcher.py`, `app.py`) are shallowly
embedded below.  Machine floats are modelled as rationals, Python dicts as
association lists (Python dicts are ordered and duplicate-free), and the global
numpy random generator as an explicit stream of draw values together with a
position counter.  `np.random.normal(m, v)` is modelled by the value the stream
yields at the current position; the engine only ever multiplies the balance by
`1 + draw`, so the draw values themselves are the only interface to randomness.
-/

/-- Single ETF in a portfolio (`PortfolioETF` in `monte_carlo.py`). -/
structure PortfolioETF where
  isin : String
  allocation : ℚ
  annual_return : ℚ
  annual_volatility : ℚ
deriving Repr, DecidableEq

/-- Rental property configuration (`RentalProperty` in `monte_carlo.py`).
The source field `include` is rendered `incl` (`include` is a Lean keyword). -/
structure RentalProperty where
  incl : Bool
  sell : Bool
  sale_year : ℤ
  mortgage_2026 : ℚ
  monthly_payment : ℚ
  monthly_income : ℚ
  interest_rate : ℚ
  mart_share : ℚ
  kerli_share : ℚ
deriving Repr, DecidableEq

/-- Monthly contribution from a person (`Contribution` in `monte_carlo.py`). -/
structure Contribution where
  name : String
  monthly_amount : ℚ
deriving Repr, DecidableEq

/-- Keyword parameters of `MonteCarloSimulator.simulate`. -/
structure SimParams where
  start_year : ℤ
  start_month : ℕ            -- 1 = January .. 12 = December
  end_year : ℤ
  starting_capital : ℚ
  annual_costs : ℚ
  withdrawal_rate : ℚ
  withdrawal_start_year : ℤ
  withdrawal_mode : String   -- "loan" or "dividend"
  contribution_end_year : Option ℤ
  contribution_change_year : Option ℤ
  contribution_change_factor : ℚ
deriving Repr, DecidableEq

/-- Weighted average return of the ETF list
(`MonteCarloSimulator._calculate_portfolio_return`). -/
def portfolio_return (pf : List PortfolioETF) : ℚ :=
  (pf.map (fun etf => etf.allocation * etf.annual_return)).sum

/-- Variance of the ETF list assuming zero correlation
(`MonteCarloSimulator._calculate_portfolio_volatility` returns the square root
of this; the square root enters only the width of the normal draws, which the
model abstracts as the draw stream). -/
def portfolio_variance (pf : List PortfolioETF) : ℚ :=
  (pf.map (fun etf => etf.allocation ^ 2 * etf.annual_volatility ^ 2)).sum

/-- Remaining mortgage balance at the start of `year`
(`MonteCarloSimulator._calculate_mortgage_balance`): amortize month by month
from the 2026 balance, stopping once the balance is non-positive.  This helper
is declared by the source but never called from `simulate`. -/
def mortgageBalanceAux (monthly_payment monthly_rate : ℚ) : ℕ → ℚ → ℚ
  | 0, bal => bal
  | n + 1, bal =>
    if bal ≤ 0 then bal
    else mortgageBalanceAux monthly_payment monthly_rate n
      (max 0 (bal - (monthly_payment - bal * monthly_rate)))

/-- Embedding of `MonteCarloSimulator._calculate_mortgage_balance`. -/
def calculate_mortgage_balance (rental : Option RentalProperty) (year : ℤ) : ℚ :=
  match rental with
  | none => 0
  | some r =>
    if r.incl then
      mortgageBalanceAux r.monthly_payment (r.interest_rate / 12)
        ((12 * (year - 2026)).toNat) r.mortgage_2026
    else 0

/-- Model of Python `str.strip()`: trailing and leading whitespace removed
(structurally recursive so that concrete instances evaluate; the core
`String.trim` is not kernel-reducible). -/
def stripStr (s : String) : String :=
  ⟨((s.data.dropWhile Char.isWhitespace).reverse.dropWhile Char.isWhitespace).reverse⟩

/-- Embedding of `validate_portfolio` from `etf_fetcher.py`: entries with a blank
identifier are dropped, then the list must be non-empty, the allocation
percentages must sum to 100 within 0.1, and each percentage must lie in
[0, 100].  Returns the validity flag and an error message. -/
def validate_portfolio_fn (etfs : List (String × ℚ)) : Bool × String :=
  if (etfs.filter (fun p => p.1 != "" && stripStr p.1 != "")).isEmpty then
    (false, "At least one ETF is required")
  else if |((etfs.filter (fun p => p.1 != "" && stripStr p.1 != "")).map Prod.snd).sum - 100| > 1 / 10 then
    (false, "Allocations must sum to 100 percent")
  else
    match (etfs.filter (fun p => p.1 != "" && stripStr p.1 != "")).find?
        (fun p => decide (p.2 < 0) || decide (p.2 > 100)) with
    | some _ => (false, "Invalid allocation")
    | none => (true, "")

/-- C1 (amended form): the validation passes exactly when, after discarding
blank-identifier entries, the collection is non-empty, the allocation
percentages sum to 100 within 0.1 (i.e. weights sum to 1.0 within 0.001), and
additionally every allocation lies between 0 and 100. -/
theorem c1_validation_characterization (etfs : List (String × ℚ)) :
    (validate_portfolio_fn etfs).1 = true ↔
      ((etfs.filter (fun p => p.1 != "" && stripStr p.1 != "")) ≠ [] ∧
        |((etfs.filter (fun p => p.1 != "" && stripStr p.1 != "")).map Prod.snd).sum - 100| ≤ 1 / 10 ∧
        ∀ p ∈ etfs.filter (fun p => p.1 != "" && stripStr p.1 != ""), 0 ≤ p.2 ∧ p.2 ≤ 100) := by
  unfold validate_portfolio_fn
  set es := etfs.filter (fun p => p.1 != "" && stripStr p.1 != "") with hes
  constructor
  · intro h
    by_cases h1 : es.isEmpty
    · rw [if_pos h1] at h; simp at h
    · rw [if_neg h1] at h
      by_cases h2 : |(es.map Prod.snd).sum - 100| > 1 / 10
      · rw [if_pos h2] at h; simp at h
      · rw [if_neg h2] at h
        refine ⟨fun hnil => h1 (by simp [hnil]), not_lt.mp h2, ?_⟩
        intro p hp
        cases hfind : es.find? (fun p => decide (p.2 < 0) || decide (p.2 > 100)) with
        | some q => rw [hfind] at h; simp at h
        | none =>
          have hq := List.find?_eq_none.mp hfind p hp
          simp only [Bool.or_eq_true, decide_eq_true_eq, not_or, not_lt] at hq
          exact ⟨hq.1, hq.2⟩
  · rintro ⟨hne, hle, hall⟩
    rw [if_neg (by simpa [List.isEmpty_iff] using hne), if_neg (not_lt.mpr hle)]
    have hfind : es.find? (fun p => decide (p.2 < 0) || decide (p.2 > 100)) = none := by
      apply List.find?_eq_none.mpr
      intro p hp
      simp only [Bool.or_eq_true, decide_eq_true_eq, not_or, not_lt]
      exact ⟨(hall p hp).1, (hall p hp).2⟩
    rw [hfind]

/-- C1 counterexample: a non-empty portfolio whose weights sum to exactly
1.0 (allocations sum to exactly 100 percent) is nevertheless rejected,
because one allocation is negative — so "no such error is raised" fails for
a portfolio satisfying the claim's two conditions. -/
theorem c1_counterexample :
    (([("A", (-50 : ℚ)), ("B", 150)] : List (String × ℚ)) ≠ []) ∧
      ((([("A", (-50 : ℚ)), ("B", 150)] : List (String × ℚ)).map Prod.snd).sum = 100) ∧
      (validate_portfolio_fn [("A", (-50 : ℚ)), ("B", 150)]).1 = false := by
  have hA : ("A" != "" && stripStr "A" != "") = true := by decide
  have hB : ("B" != "" && stripStr "B" != "") = true := by decide
  refine ⟨by simp, by norm_num, ?_⟩
  norm_num [validate_portfolio_fn, List.filter, List.find?, hA, hB]

/-- Condition `o is not None and o <= year` used by the contribution
stop/scale policy (`year >= contribution_end_year` etc.). -/
def optYearLE (o : Option ℤ) (year : ℤ) : Bool :=
  match o with
  | some e => e ≤ year
  | none => false

/-- Monthly contribution total inside `MonteCarloSimulator.simulate`:
the sum of all monthly amounts, zeroed from the stop year on, otherwise
scaled by the change factor from the change year on (stop takes precedence). -/
def simContrib (contribs : List Contribution) (endY changeY : Option ℤ)
    (factor : ℚ) (year : ℤ) : ℚ :=
  if optYearLE endY year then 0
  else if optYearLE changeY year then
    (contribs.map Contribution.monthly_amount).sum * factor
  else (contribs.map Contribution.monthly_amount).sum

/-- One month of the inner loop of `MonteCarloSimulator.simulate`, in source
order: add the (policy-adjusted) contribution, subtract one twelfth of the
annual costs, take the monthly withdrawal when the year's budget is positive,
credit rental income (financed-by-pool, after the sale year or from July of
the sale year), deduct the mortgage lump sum (July of the sale year), then
apply the month's random return.  Returns the new balance and the gross
withdrawal taken this month. -/
def monthStep (contribs : List Contribution) (rental : Option RentalProperty)
    (p : SimParams) (year : ℤ) (budget : ℚ) (month : ℕ) (bal : ℚ) (draw : ℚ) :
    ℚ × ℚ :=
  let b1 := bal + simContrib contribs p.contribution_end_year
    p.contribution_change_year p.contribution_change_factor year
  let b2 := b1 - p.annual_costs / 12
  let wd : ℚ := if 0 < budget then budget / 12 else 0
  let b3 := b2 - wd
  let b4 := b3 + (match rental with
    | some r =>
      if r.incl ∧ r.sell then
        if r.sale_year < year then r.monthly_income
        else if year = r.sale_year ∧ 6 ≤ month then r.monthly_income
        else 0
      else 0
    | none => 0)
  let b5 := b4 - (match rental with
    | some r =>
      if r.incl ∧ r.sell ∧ year = r.sale_year ∧ month = 6 then
        r.mart_share + r.kerli_share
      else 0
    | none => 0)
  (b5 * (1 + draw), wd)

/-- First iterated month index (0-based) of a simulated year: the first year
starts at `start_month - 1`, later years at 0. -/
def firstMonthOf (p : SimParams) (year : ℤ) : ℕ :=
  if year = p.start_year then p.start_month - 1 else 0

/-- The year sequence `list(range(start_year, end_year + 1))`. -/
def yearsList (sy ey : ℤ) : List ℤ :=
  (List.range (ey + 1 - sy).toNat).map (fun (i : ℕ) => sy + (i : ℤ))

/-- One simulated year for one path: fix the withdrawal budget from the
balance at the start of the year (when the year is at or past the withdrawal
start year and the rate is positive), then fold the months from `fm` to 11.
State is (balance, gross payout so far, position in the draw stream). -/
def simulateYear (contribs : List Contribution) (rental : Option RentalProperty)
    (p : SimParams) (stream : ℕ → ℚ) (year : ℤ) (fm : ℕ) (bal0 : ℚ) (i0 : ℕ) :
    ℚ × ℚ × ℕ :=
  let budget : ℚ :=
    if p.withdrawal_start_year ≤ year ∧ 0 < p.withdrawal_rate then
      bal0 * p.withdrawal_rate
    else 0
  (List.range' fm (12 - fm)).foldl
    (fun acc month =>
      let r := monthStep contribs rental p year budget month acc.1 (stream acc.2.2)
      (r.1, acc.2.1 + r.2, acc.2.2 + 1))
    (bal0, 0, i0)

/-- One full path of `MonteCarloSimulator.simulate`: fold the years, recording
for each year the end-of-year balance and the net payout (gross × 0.78 in
dividend mode, gross otherwise).  Returns the records and the final position
in the draw stream. -/
def simulatePath (contribs : List Contribution) (rental : Option RentalProperty)
    (p : SimParams) (stream : ℕ → ℚ) (i0 : ℕ) : List (ℚ × ℚ) × ℕ :=
  let step := fun (acc : List (ℚ × ℚ) × ℚ × ℕ) (year : ℤ) =>
    let fm := firstMonthOf p year
    let r := simulateYear contribs rental p stream year fm acc.2.1 acc.2.2
    let payNet := if p.withdrawal_mode = "dividend" then r.2.1 * (78 / 100) else r.2.1
    (acc.1 ++ [(r.1, payNet)], r.1, r.2.2)
  let out := (yearsList p.start_year p.end_year).foldl step ([], p.starting_capital, i0)
  (out.1, out.2.2)

/-- All paths (`for sim in range(self.n_simulations)`), threading the single
global draw stream position across paths as the sequential source does. -/
def runPaths (contribs : List Contribution) (rental : Option RentalProperty)
    (p : SimParams) (stream : ℕ → ℚ) (nsims : ℕ) (i0 : ℕ) :
    List (List (ℚ × ℚ)) × ℕ :=
  (List.range nsims).foldl
    (fun acc _ =>
      let r := simulatePath contribs rental p stream acc.2
      (acc.1 ++ [r.1], r.2))
    ([], i0)

/-- The trajectory matrix `paths`: per path, the end-of-year balances. -/
def trajMatrix (rows : List (List (ℚ × ℚ))) : List (List ℚ) :=
  rows.map (fun r => r.map Prod.fst)

/-- The withdrawal matrix `payouts_paths`: per path, the net annual payouts. -/
def payoutMatrix (rows : List (List (ℚ × ℚ))) : List (List ℚ) :=
  rows.map (fun r => r.map Prod.snd)

/-- Auxiliary payout-accumulation lemma for C2: when the year's budget is
positive, every month of the fold adds exactly one twelfth of the budget to
the accumulated payout. -/
theorem foldl_month_payout (contribs : List Contribution)
    (rental : Option RentalProperty) (p : SimParams) (stream : ℕ → ℚ)
    (year : ℤ) (budget : ℚ) (hb : 0 < budget) :
    ∀ (ms : List ℕ) (bal pay : ℚ) (i : ℕ),
      ((ms.foldl
        (fun acc month =>
          let r := monthStep contribs rental p year budget month acc.1 (stream acc.2.2)
          (r.1, acc.2.1 + r.2, acc.2.2 + 1))
        (bal, pay, i)).2.1) = pay + (ms.length : ℚ) * (budget / 12) := by
  intro ms
  induction ms with
  | nil => intro bal pay i; simp
  | cons m ms ih =>
    intro bal pay i
    have hwd : (monthStep contribs rental p year budget m bal (stream i)).2 = budget / 12 := by
      simp [monthStep, if_pos hb]
    simp only [List.foldl_cons, ih, List.length_cons]
    rw [hwd]
    push_cast
    ring

/-- C2 (amended form): whenever the year is at or past the withdrawal start
year, the withdrawal rate is positive, and the balance at the start of the
year is positive, the year's budget is fixed once as rate × start-of-year
balance, every iterated month withdraws exactly one twelfth of that budget,
and the recorded gross withdrawal for the year is the number of iterated
months times that twelfth. -/
theorem c2_withdrawal_budget (contribs : List Contribution)
    (rental : Option RentalProperty) (p : SimParams) (stream : ℕ → ℚ)
    (year : ℤ) (fm : ℕ) (bal0 : ℚ) (i0 : ℕ)
    (hy : p.withdrawal_start_year ≤ year) (hr : 0 < p.withdrawal_rate)
    (hb : 0 < bal0) :
    (∀ (month : ℕ) (bal draw : ℚ),
        (monthStep contribs rental p year (bal0 * p.withdrawal_rate) month bal draw).2 =
          bal0 * p.withdrawal_rate / 12) ∧
      (simulateYear contribs rental p stream year fm bal0 i0).2.1 =
        ((12 - fm : ℕ) : ℚ) * (bal0 * p.withdrawal_rate / 12) := by
  have hbud : 0 < bal0 * p.withdrawal_rate := mul_pos hb hr
  constructor
  · intro month bal draw
    simp [monthStep, if_pos hbud]
  · unfold simulateYear
    rw [if_pos ⟨hy, hr⟩]
    rw [foldl_month_payout contribs rental p stream year _ hbud]
    simp [List.length_range']

/-- C2 witness configuration: one flat year, 10 percent withdrawal from
2026 on, no contributions, no costs. -/
def p2w : SimParams :=
  { start_year := 2026, start_month := 1, end_year := 2026
    starting_capital := 1200, annual_costs := 0
    withdrawal_rate := 1 / 10, withdrawal_start_year := 2026
    withdrawal_mode := "loan", contribution_end_year := none
    contribution_change_year := none, contribution_change_factor := 1 }

/-- C2 witness: at a concrete positive start-of-year balance the theorem
applies and gives a full-year gross withdrawal of 12 × (120/12) = 120. -/
theorem c2_witness :
    p2w.withdrawal_start_year ≤ 2026 ∧ 0 < p2w.withdrawal_rate ∧ 0 < (1200 : ℚ) ∧
      (simulateYear [] none p2w (fun _ => 0) 2026 0 1200 0).2.1 =
        ((12 - 0 : ℕ) : ℚ) * (1200 * p2w.withdrawal_rate / 12) := by
  refine ⟨by norm_num [p2w], by norm_num [p2w], by norm_num, ?_⟩
  exact (c2_withdrawal_budget [] none p2w (fun _ => 0) 2026 0 1200 0
    (by norm_num [p2w]) (by norm_num [p2w]) (by norm_num)).2

/-- C2 counterexample: with a negative start-of-year balance the budget
`rate × balance` is negative, and the code skips the withdrawal entirely —
the month does not subtract one twelfth of the (negative) budget, and the
recorded gross withdrawal is 0, not the sum of twelve negative twelfths. -/
theorem c2_counterexample :
    p2w.withdrawal_start_year ≤ 2026 ∧ 0 < p2w.withdrawal_rate ∧
      (-1200 : ℚ) * p2w.withdrawal_rate = -120 ∧
      (simulateYear [] none p2w (fun _ => 0) 2026 0 (-1200) 0).2.1 = 0 ∧
      (0 : ℚ) ≠ ((12 : ℕ) : ℚ) * ((-1200 : ℚ) * p2w.withdrawal_rate / 12) := by
  refine ⟨by norm_num [p2w], by norm_num [p2w], by norm_num [p2w], ?_, by norm_num [p2w]⟩
  norm_num [simulateYear, monthStep, simContrib, optYearLE, p2w, List.range',
    List.foldl_cons, List.foldl_nil]

/-- The (year, 0-based month) pairs iterated by one path of
`MonteCarloSimulator.simulate`: all years from start to end, with the first
year starting at `start_month - 1` and every other year at month 0. -/
def simSteps (p : SimParams) : List (ℤ × ℕ) :=
  (yearsList p.start_year p.end_year).flatMap
    (fun y => (List.range' (firstMonthOf p y) (12 - firstMonthOf p y)).map
      (fun m => (y, m)))

/-- Membership in `yearsList` is the closed year range. -/
theorem mem_yearsList {sy ey y : ℤ} : y ∈ yearsList sy ey ↔ sy ≤ y ∧ y ≤ ey := by
  unfold yearsList
  simp only [List.mem_map, List.mem_range]
  constructor
  · rintro ⟨i, hi, rfl⟩
    omega
  · rintro ⟨h1, h2⟩
    exact ⟨(y - sy).toNat, by omega, by omega⟩

/-- The simulated years are pairwise distinct. -/
theorem nodup_yearsList (sy ey : ℤ) : (yearsList sy ey).Nodup := by
  unfold yearsList
  refine List.Nodup.map ?_ (List.nodup_range _)
  intro a b hab
  have h : sy + (a : ℤ) = sy + (b : ℤ) := hab
  omega

/-- The iterated (year, month) steps are pairwise distinct. -/
theorem nodup_simSteps (p : SimParams) : (simSteps p).Nodup := by
  unfold simSteps
  rw [List.nodup_flatMap]
  constructor
  · intro y _
    refine List.Nodup.map ?_ (List.nodup_range' _ _)
    intro a b hab
    simpa using hab
  · refine (nodup_yearsList p.start_year p.end_year).imp ?_
    intro a b hab x hxa hxb
    simp only [List.mem_map] at hxa hxb
    rcases hxa with ⟨m, -, rfl⟩
    rcases hxb with ⟨m', -, h⟩
    exact hab (congrArg Prod.fst h).symm

/-- A (year, month) pair is iterated exactly when the year is in range and
the month is at or past the year's first month (and below 12). -/
theorem mem_simSteps (p : SimParams) (y : ℤ) (m : ℕ) :
    (y, m) ∈ simSteps p ↔
      (p.start_year ≤ y ∧ y ≤ p.end_year ∧ firstMonthOf p y ≤ m ∧ m < 12) := by
  unfold simSteps
  simp only [List.mem_flatMap, List.mem_map]
  constructor
  · rintro ⟨y', hy', m', hm', heq⟩
    have hy2 : y' = y := (congrArg Prod.fst heq)
    have hm2 : m' = m := (congrArg Prod.snd heq)
    subst hy2; subst hm2
    rcases mem_yearsList.mp hy' with ⟨h1, h2⟩
    have h3 := List.mem_range'_1.mp hm'
    exact ⟨h1, h2, h3.1, by omega⟩
  · rintro ⟨h1, h2, h3, h4⟩
    exact ⟨y, mem_yearsList.mpr ⟨h1, h2⟩, m,
      List.mem_range'_1.mpr ⟨h3, by omega⟩, rfl⟩

/-- In a duplicate-free list, the sublist of elements equal to `a` has length
1 when `a` occurs and 0 otherwise. -/
theorem length_filter_eq_of_nodup {α : Type} [DecidableEq α] (l : List α)
    (hl : l.Nodup) (a : α) :
    (l.filter (fun x => decide (x = a))).length = if a ∈ l then 1 else 0 := by
  induction l with
  | nil => simp
  | cons b t ih =>
    rcases List.nodup_cons.mp hl with ⟨hb, ht⟩
    by_cases hba : b = a
    · subst hba
      have hnt : ¬b ∈ t := hb
      simp [List.filter_cons, ih ht, hnt]
    · simp [List.filter_cons, hba, ih ht, List.mem_cons, Ne.symm hba]

/-- C3 (amended form): with an included, financed-by-pool rental, each
iterated month credits the monthly rental income exactly when the year is
strictly after the sale year, or equals it with month index ≥ 6; the mortgage
lump sum (sum of both shares) is deducted exactly in the step with year =
sale year and month index = 6; and that step occurs exactly once among the
iterated steps when the sale-year July step lies within the simulated
horizon, and zero times otherwise. -/
theorem c3_rental_timing (contribs : List Contribution) (r : RentalProperty)
    (p : SimParams) (hincl : r.incl = true) (hsell : r.sell = true) :
    (∀ (year : ℤ) (budget : ℚ) (month : ℕ) (bal draw : ℚ),
        monthStep contribs (some r) p year budget month bal draw =
          ((bal + simContrib contribs p.contribution_end_year
              p.contribution_change_year p.contribution_change_factor year
            - p.annual_costs / 12
            - (if 0 < budget then budget / 12 else 0)
            + (if r.sale_year < year ∨ (year = r.sale_year ∧ 6 ≤ month) then
                r.monthly_income else 0)
            - (if year = r.sale_year ∧ month = 6 then
                r.mart_share + r.kerli_share else 0)) * (1 + draw),
           if 0 < budget then budget / 12 else 0)) ∧
      ((simSteps p).filter (fun s => decide (s = (r.sale_year, 6)))).length =
        (if p.start_year ≤ r.sale_year ∧ r.sale_year ≤ p.end_year ∧
            (r.sale_year = p.start_year → p.start_month - 1 ≤ 6) then 1 else 0) := by
  constructor
  · intro year budget month bal draw
    by_cases h1 : r.sale_year < year <;>
      by_cases h2 : year = r.sale_year <;>
      by_cases h3 : 6 ≤ month <;>
      by_cases h4 : month = 6 <;>
      simp [monthStep, hincl, hsell, h1, h2, h3, h4]
  · rw [length_filter_eq_of_nodup _ (nodup_simSteps p)]
    have hiff : ((r.sale_year, 6) ∈ simSteps p) ↔
        (p.start_year ≤ r.sale_year ∧ r.sale_year ≤ p.end_year ∧
          (r.sale_year = p.start_year → p.start_month - 1 ≤ 6)) := by
      rw [mem_simSteps]
      unfold firstMonthOf
      by_cases h : r.sale_year = p.start_year <;> simp [h]
    simp only [hiff]

/-- C3 witness rental configuration: sale year 2030 inside the horizon. -/
def r3 : RentalProperty :=
  { incl := true, sell := true, sale_year := 2030, mortgage_2026 := 100000
    monthly_payment := 500, monthly_income := 800, interest_rate := 1 / 25
    mart_share := 5000, kerli_share := 5000 }

/-- C3 witness simulation parameters: 2026–2040 starting in January. -/
def p3 : SimParams :=
  { start_year := 2026, start_month := 1, end_year := 2040
    starting_capital := 50000, annual_costs := 0
    withdrawal_rate := 0, withdrawal_start_year := 2035
    withdrawal_mode := "loan", contribution_end_year := none
    contribution_change_year := none, contribution_change_factor := 1 }

/-- C3 witness: the step equation at the sale-year July step and the
exactly-once count for a sale year within the horizon. -/
theorem c3_witness :
    r3.incl = true ∧ r3.sell = true ∧
      (monthStep [] (some r3) p3 2030 0 6 1000 0 =
        ((1000 + simContrib [] p3.contribution_end_year p3.contribution_change_year
            p3.contribution_change_factor 2030
          - p3.annual_costs / 12
          - (if (0 : ℚ) < 0 then 0 / 12 else 0)
          + (if r3.sale_year < 2030 ∨ ((2030 : ℤ) = r3.sale_year ∧ (6 : ℕ) ≤ 6) then
              r3.monthly_income else 0)
          - (if (2030 : ℤ) = r3.sale_year ∧ (6 : ℕ) = 6 then
              r3.mart_share + r3.kerli_share else 0)) * (1 + 0),
         if (0 : ℚ) < 0 then 0 / 12 else 0)) ∧
      ((simSteps p3).filter (fun s => decide (s = (r3.sale_year, 6)))).length =
        (if p3.start_year ≤ r3.sale_year ∧ r3.sale_year ≤ p3.end_year ∧
            (r3.sale_year = p3.start_year → p3.start_month - 1 ≤ 6) then 1 else 0) := by
  have h := c3_rental_timing [] r3 p3 rfl rfl
  exact ⟨rfl, rfl, h.1 2030 0 6 1000 0, h.2⟩

/-- C3 counterexample parameters: a single sale-year 2026 simulated from
August (start month 8), so the July step is never iterated. -/
def p3c : SimParams :=
  { start_year := 2026, start_month := 8, end_year := 2026
    starting_capital := 1000, annual_costs := 0
    withdrawal_rate := 0, withdrawal_start_year := 2035
    withdrawal_mode := "loan", contribution_end_year := none
    contribution_change_year := none, contribution_change_factor := 1 }

/-- C3 counterexample rental: included, financed-by-pool, sale year 2026,
shares 5000 + 5000, zero rental income to isolate the lump sum. -/
def r3c : RentalProperty :=
  { incl := true, sell := true, sale_year := 2026, mortgage_2026 := 0
    monthly_payment := 0, monthly_income := 0, interest_rate := 0
    mart_share := 5000, kerli_share := 5000 }

/-- C3 counterexample: the rental is present and financed-by-pool and the
sale year is within the simulated years, yet no iterated step is the
sale-year July step — the 10000 lump sum is deducted zero times, not exactly
once, and the path's balance record stays at the starting capital. -/
theorem c3_counterexample :
    r3c.incl = true ∧ r3c.sell = true ∧
      p3c.start_year ≤ r3c.sale_year ∧ r3c.sale_year ≤ p3c.end_year ∧
      r3c.mart_share + r3c.kerli_share = 10000 ∧
      ((simSteps p3c).filter (fun s => decide (s = (r3c.sale_year, 6)))).length = 0 ∧
      (simulatePath [] (some r3c) p3c (fun _ => 0) 0).1 = [((1000 : ℚ), 0)] := by
  have hyears : yearsList 2026 2026 = [(2026 : ℤ)] := by decide
  have hrange : List.range' 7 5 = [7, 8, 9, 10, 11] := by decide
  refine ⟨rfl, rfl, by decide, by decide, by norm_num [r3c], by decide, ?_⟩
  simp only [p3c, r3c]
  simp +decide [simulatePath, simulateYear, firstMonthOf, monthStep, simContrib,
    optYearLE, hyears, hrange]
  try norm_num

/-- Linear interpolation between order statistics of an already-sorted list
at fractional position `pos` (the core of `np.percentile`, method linear):
take the floor index, and interpolate towards the next entry (index clamped
to the last element). -/
def interpSorted (s : List ℚ) (pos : ℚ) : ℚ :=
  let i : ℕ := (⌊pos⌋).toNat
  let lo := s.getD i 0
  let hi := s.getD (min (i + 1) (s.length - 1)) 0
  lo + (pos - (i : ℚ)) * (hi - lo)

/-- Embedding of `np.percentile(xs, q)` with linear interpolation: sort, then interpolate
at position `q / 100 × (n − 1)`. -/
def percentile (xs : List ℚ) (q : ℚ) : ℚ :=
  interpSorted (List.insertionSort (fun a b => a ≤ b) xs)
    (q / 100 * (((List.insertionSort (fun a b => a ≤ b) xs).length : ℚ) - 1))

/-- Column `i` of a matrix stored as a list of rows (`axis=0` reduction). -/
def column (m : List (List ℚ)) (i : ℕ) : List ℚ :=
  m.filterMap (fun row => row.get? i)

/-- Per-year percentile series over the first `n` columns
(`np.percentile(paths, q, axis=0)`). -/
def bandList (paths : List (List ℚ)) (n : ℕ) (q : ℚ) : List ℚ :=
  (List.range n).map (fun i => percentile (column paths i) q)

/-- Arithmetic mean of a list (`np.mean` over a column). -/
def meanList (xs : List ℚ) : ℚ := xs.sum / xs.length

/-- Container for Monte Carlo simulation results (`SimulationResult` in
`monte_carlo.py`); the `percentiles` table key `i` stands for the label pi. -/
structure SimulationResult where
  years : List ℤ
  p2 : List ℚ
  p10 : List ℚ
  p50 : List ℚ
  p90 : List ℚ
  p98 : List ℚ
  mean : List ℚ
  percentiles : List (ℕ × List ℚ)
  payouts_p50 : List ℚ
  all_paths : List (List ℚ)

/-- The aggregation tail of `MonteCarloSimulator.simulate`: reduce the
trajectory and withdrawal matrices to the curated percentile bands, the mean,
the median payout series and the full 0–100 percentile table. -/
def buildResult (years : List ℤ) (rows : List (List (ℚ × ℚ))) : SimulationResult :=
  { years := years
    p2 := bandList (trajMatrix rows) years.length 2
    p10 := bandList (trajMatrix rows) years.length 10
    p50 := bandList (trajMatrix rows) years.length 50
    p90 := bandList (trajMatrix rows) years.length 90
    p98 := bandList (trajMatrix rows) years.length 98
    mean := (List.range years.length).map (fun i => meanList (column (trajMatrix rows) i))
    percentiles := (List.range 101).map (fun i => (i, bandList (trajMatrix rows) years.length (i : ℚ)))
    payouts_p50 := bandList (payoutMatrix rows) years.length 50
    all_paths := trajMatrix rows }

/-- Full engine run: paths then aggregation. -/
def runSimulation (contribs : List Contribution) (rental : Option RentalProperty)
    (p : SimParams) (stream : ℕ → ℚ) (nsims : ℕ) (i0 : ℕ) : SimulationResult × ℕ :=
  let r := runPaths contribs rental p stream nsims i0
  (buildResult (yearsList p.start_year p.end_year) r.1, r.2)

/-- Embedding of `np.random.seed(seed)` in `MonteCarloSimulator.__init__`: a supplied seed
replaces the global generator state by the seed-determined stream at
position 0; with no seed the prior global state is kept. -/
def seedRNG (noiseOf : ℕ → ℕ → ℚ) (seed : Option ℕ) (g : (ℕ → ℚ) × ℕ) :
    (ℕ → ℚ) × ℕ :=
  match seed with
  | some s => (noiseOf s, 0)
  | none => g

/-- Two back-to-back engine runs with the same seed and configuration: the
second run starts from whatever global generator state the first run left,
but is re-seeded by its constructor. -/
def runTwiceSeeded (contribs : List Contribution) (rental : Option RentalProperty)
    (p : SimParams) (noiseOf : ℕ → ℕ → ℚ) (nsims : ℕ) (s : ℕ) (g : (ℕ → ℚ) × ℕ) :
    (SimulationResult × List (List (ℚ × ℚ))) ×
      (SimulationResult × List (List (ℚ × ℚ))) :=
  let g1 := seedRNG noiseOf (some s) g
  let r1 := runPaths contribs rental p g1.1 nsims g1.2
  let g2 := seedRNG noiseOf (some s) (g1.1, r1.2)
  let r2 := runPaths contribs rental p g2.1 nsims g2.2
  ((buildResult (yearsList p.start_year p.end_year) r1.1, r1.1),
    (buildResult (yearsList p.start_year p.end_year) r2.1, r2.1))

/-- C5: running the engine twice with the same seed and identical
configuration yields identical results — in particular identical trajectory
matrices and identical withdrawal matrices — whatever global generator state
the first run left behind. -/
theorem c5_determinism (contribs : List Contribution)
    (rental : Option RentalProperty) (p : SimParams) (noiseOf : ℕ → ℕ → ℚ)
    (nsims : ℕ) (s : ℕ) (g : (ℕ → ℚ) × ℕ) :
    (runTwiceSeeded contribs rental p noiseOf nsims s g).1 =
      (runTwiceSeeded contribs rental p noiseOf nsims s g).2 ∧
      trajMatrix (runTwiceSeeded contribs rental p noiseOf nsims s g).1.2 =
        trajMatrix (runTwiceSeeded contribs rental p noiseOf nsims s g).2.2 ∧
      payoutMatrix (runTwiceSeeded contribs rental p noiseOf nsims s g).1.2 =
        payoutMatrix (runTwiceSeeded contribs rental p noiseOf nsims s g).2.2 := by
  refine ⟨?_, ?_, ?_⟩ <;> simp [runTwiceSeeded, seedRNG]

/-- Entries of a sorted list (read through `getD`) are monotone in the index. -/
theorem getD_mono_of_sorted {s : List ℚ} (hs : List.Sorted (fun a b => a ≤ b) s)
    {i j : ℕ} (hij : i ≤ j) (hj : j < s.length) : s.getD i 0 ≤ s.getD j 0 := by
  have hi : i < s.length := Nat.lt_of_le_of_lt hij hj
  rw [List.getD_eq_getElem s 0 hi, List.getD_eq_getElem s 0 hj]
  rcases Nat.lt_or_ge i j with h | h
  · exact List.pairwise_iff_getElem.mp hs i j hi hj h
  · have heq : i = j := le_antisymm hij h
    subst heq
    exact le_refl _

/-- Linear interpolation over a sorted list is monotone in the position, for
positions within the index range. -/
theorem interp_mono {s : List ℚ} (hs : List.Sorted (fun a b => a ≤ b) s)
    {p1 p2 : ℚ} (hp0 : 0 ≤ p1) (hp12 : p1 ≤ p2)
    (hpn : p2 ≤ (s.length : ℚ) - 1) :
    interpSorted s p1 ≤ interpSorted s p2 := by
  have hn1 : 1 ≤ s.length := by
    rcases Nat.eq_zero_or_pos s.length with h0 | h1
    · exfalso
      rw [h0] at hpn
      norm_num at hpn
      linarith
    · exact h1
  have h1f : (0 : ℤ) ≤ ⌊p1⌋ := Int.floor_nonneg.mpr hp0
  have h2f : (0 : ℤ) ≤ ⌊p2⌋ := Int.floor_nonneg.mpr (le_trans hp0 hp12)
  set n := s.length with hn
  set i1 := (⌊p1⌋).toNat with hi1def
  set i2 := (⌊p2⌋).toNat with hi2def
  have hc1 : (i1 : ℚ) = ((⌊p1⌋ : ℤ) : ℚ) := by exact_mod_cast Int.toNat_of_nonneg h1f
  have hc2 : (i2 : ℚ) = ((⌊p2⌋ : ℤ) : ℚ) := by exact_mod_cast Int.toNat_of_nonneg h2f
  have hf1lo : (i1 : ℚ) ≤ p1 := by rw [hc1]; exact Int.floor_le p1
  have hf1hi : p1 < (i1 : ℚ) + 1 := by
    rw [hc1]; exact_mod_cast Int.lt_floor_add_one p1
  have hf2lo : (i2 : ℚ) ≤ p2 := by rw [hc2]; exact Int.floor_le p2
  have hfl : ⌊p2⌋ ≤ (n : ℤ) - 1 := by
    have hceq : ((n : ℚ) - 1) = (((n : ℤ) - 1 : ℤ) : ℚ) := by push_cast; ring
    calc ⌊p2⌋ ≤ ⌊(n : ℚ) - 1⌋ := Int.floor_mono hpn
      _ = (n : ℤ) - 1 := by rw [hceq, Int.floor_intCast]
  have hi2n : i2 ≤ n - 1 := by omega
  have hi12 : i1 ≤ i2 := by
    have := Int.floor_mono hp12
    omega
  have hi2lt : i2 < n := by omega
  have hi1lt : i1 < n := by omega
  simp only [interpSorted, ← hn, ← hi1def, ← hi2def]
  have hlohi1 : s.getD i1 0 ≤ s.getD (min (i1 + 1) (n - 1)) 0 := by
    apply getD_mono_of_sorted hs
    · exact le_min (by omega) (by omega)
    · omega
  have hlohi2 : s.getD i2 0 ≤ s.getD (min (i2 + 1) (n - 1)) 0 := by
    apply getD_mono_of_sorted hs
    · exact le_min (by omega) (by omega)
    · omega
  rcases eq_or_lt_of_le hi12 with heq | hlt
  · rw [← heq]
    have hmul := mul_le_mul_of_nonneg_right
      (sub_le_sub_right hp12 (i1 : ℚ)) (sub_nonneg.mpr hlohi1)
    linarith
  · have hval1 : s.getD i1 0 + (p1 - (i1 : ℚ)) *
        (s.getD (min (i1 + 1) (n - 1)) 0 - s.getD i1 0) ≤
        s.getD (min (i1 + 1) (n - 1)) 0 := by
      have h1 : p1 - (i1 : ℚ) ≤ 1 := by linarith
      have hmul := mul_le_mul_of_nonneg_right h1 (sub_nonneg.mpr hlohi1)
      linarith
    have hmid : s.getD (min (i1 + 1) (n - 1)) 0 ≤ s.getD i2 0 := by
      apply getD_mono_of_sorted hs
      · omega
      · omega
    have hval2 : s.getD i2 0 ≤ s.getD i2 0 + (p2 - (i2 : ℚ)) *
        (s.getD (min (i2 + 1) (n - 1)) 0 - s.getD i2 0) := by
      have hmul := mul_nonneg (sub_nonneg.mpr hf2lo) (sub_nonneg.mpr hlohi2)
      linarith
    linarith

/-- The function `percentile` is monotone in the requested percentage on [0, 100]. -/
theorem percentile_mono (xs : List ℚ) {q1 q2 : ℚ} (h0 : 0 ≤ q1) (h12 : q1 ≤ q2)
    (h100 : q2 ≤ 100) : percentile xs q1 ≤ percentile xs q2 := by
  unfold percentile
  set s := List.insertionSort (fun a b => a ≤ b) xs with hsdef
  have hsorted : List.Sorted (fun a b => a ≤ b) s := List.sorted_insertionSort _ xs
  rcases Nat.eq_zero_or_pos s.length with h0n | h1n
  · have hnil : s = [] := List.length_eq_zero.mp h0n
    rw [hnil]
    simp [interpSorted]
  · have hsub : (0 : ℚ) ≤ (s.length : ℚ) - 1 := by
      have : (1 : ℚ) ≤ (s.length : ℚ) := by exact_mod_cast h1n
      linarith
    apply interp_mono hsorted
    · exact mul_nonneg (div_nonneg h0 (by norm_num)) hsub
    · exact mul_le_mul_of_nonneg_right
        (div_le_div_of_nonneg_right h12 (by norm_num : (0 : ℚ) ≤ 100)) hsub
    · have hle1 : q2 / 100 ≤ 1 := (div_le_one (by norm_num : (0 : ℚ) < 100)).mpr h100
      calc q2 / 100 * ((s.length : ℚ) - 1) ≤ 1 * ((s.length : ℚ) - 1) :=
            mul_le_mul_of_nonneg_right hle1 hsub
        _ = (s.length : ℚ) - 1 := one_mul _

/-- C8: for every trajectory matrix and every year column, the curated
percentile bands are ordered p2 ≤ p10 ≤ p50 ≤ p90 ≤ p98, and every curated
percentile lies between the p0 and p100 entries of the full integer-step
percentile table (all computed by linear interpolation between order
statistics). -/
theorem c8_percentile_bands (paths : List (List ℚ)) (i : ℕ) :
    (percentile (column paths i) 2 ≤ percentile (column paths i) 10 ∧
      percentile (column paths i) 10 ≤ percentile (column paths i) 50 ∧
      percentile (column paths i) 50 ≤ percentile (column paths i) 90 ∧
      percentile (column paths i) 90 ≤ percentile (column paths i) 98) ∧
    ∀ q : ℚ, q ∈ ([2, 10, 50, 90, 98] : List ℚ) →
      percentile (column paths i) 0 ≤ percentile (column paths i) q ∧
      percentile (column paths i) q ≤ percentile (column paths i) 100 := by
  refine ⟨⟨?_, ?_, ?_, ?_⟩, ?_⟩
  · exact percentile_mono _ (by norm_num) (by norm_num) (by norm_num)
  · exact percentile_mono _ (by norm_num) (by norm_num) (by norm_num)
  · exact percentile_mono _ (by norm_num) (by norm_num) (by norm_num)
  · exact percentile_mono _ (by norm_num) (by norm_num) (by norm_num)
  · intro q hq
    fin_cases hq <;>
      exact ⟨percentile_mono _ (by norm_num) (by norm_num) (by norm_num),
        percentile_mono _ (by norm_num) (by norm_num) (by norm_num)⟩

/-- The month step reads only the rental fields `incl`, `sell`, `sale_year`,
`monthly_income`, `mart_share`, `kerli_share` — never the mortgage balance,
the mortgage payment or the interest rate. -/
theorem monthStep_rental_congr (contribs : List Contribution) (p : SimParams)
    (r1 r2 : RentalProperty) (h1 : r1.incl = r2.incl) (h2 : r1.sell = r2.sell)
    (h3 : r1.sale_year = r2.sale_year)
    (h4 : r1.monthly_income = r2.monthly_income)
    (h5 : r1.mart_share = r2.mart_share)
    (h6 : r1.kerli_share = r2.kerli_share) :
    monthStep contribs (some r1) p = monthStep contribs (some r2) p := by
  funext year budget month bal draw
  simp only [monthStep, h1, h2, h3, h4, h5, h6]

/-- Year-level lift of `monthStep_rental_congr`. -/
theorem simulateYear_rental_congr (contribs : List Contribution) (p : SimParams)
    (stream : ℕ → ℚ) (r1 r2 : RentalProperty)
    (h1 : r1.incl = r2.incl) (h2 : r1.sell = r2.sell)
    (h3 : r1.sale_year = r2.sale_year)
    (h4 : r1.monthly_income = r2.monthly_income)
    (h5 : r1.mart_share = r2.mart_share)
    (h6 : r1.kerli_share = r2.kerli_share) :
    simulateYear contribs (some r1) p stream = simulateYear contribs (some r2) p stream := by
  funext year fm bal0 i0
  unfold simulateYear
  rw [monthStep_rental_congr contribs p r1 r2 h1 h2 h3 h4 h5 h6]

/-- Path-level lift of `monthStep_rental_congr`. -/
theorem simulatePath_rental_congr (contribs : List Contribution) (p : SimParams)
    (stream : ℕ → ℚ) (r1 r2 : RentalProperty)
    (h1 : r1.incl = r2.incl) (h2 : r1.sell = r2.sell)
    (h3 : r1.sale_year = r2.sale_year)
    (h4 : r1.monthly_income = r2.monthly_income)
    (h5 : r1.mart_share = r2.mart_share)
    (h6 : r1.kerli_share = r2.kerli_share) :
    simulatePath contribs (some r1) p stream = simulatePath contribs (some r2) p stream := by
  funext i0
  unfold simulatePath
  rw [simulateYear_rental_congr contribs p stream r1 r2 h1 h2 h3 h4 h5 h6]

/-- C9: two runs identical except for the rental's starting mortgage balance,
monthly mortgage payment and mortgage interest rate produce identical path
matrices and an identical SimulationResult (trajectory matrix, withdrawal
records, every percentile band, the full percentile table and the mean
series) — the mortgage-amortization helper plays no part in the simulation. -/
theorem c9_mortgage_independent (contribs : List Contribution) (p : SimParams)
    (stream : ℕ → ℚ) (nsims i0 : ℕ) (r1 r2 : RentalProperty)
    (h1 : r1.incl = r2.incl) (h2 : r1.sell = r2.sell)
    (h3 : r1.sale_year = r2.sale_year)
    (h4 : r1.monthly_income = r2.monthly_income)
    (h5 : r1.mart_share = r2.mart_share)
    (h6 : r1.kerli_share = r2.kerli_share) :
    runPaths contribs (some r1) p stream nsims i0 =
        runPaths contribs (some r2) p stream nsims i0 ∧
      runSimulation contribs (some r1) p stream nsims i0 =
        runSimulation contribs (some r2) p stream nsims i0 := by
  have hrp : runPaths contribs (some r1) p = runPaths contribs (some r2) p := by
    funext stream nsims i0
    unfold runPaths
    rw [simulatePath_rental_congr contribs p stream r1 r2 h1 h2 h3 h4 h5 h6]
  constructor
  · rw [hrp]
  · unfold runSimulation
    rw [hrp]

/-- C9 witness rental pair: identical except for mortgage balance, payment
and interest rate. -/
def r9a : RentalProperty :=
  { incl := true, sell := true, sale_year := 2030, mortgage_2026 := 100000
    monthly_payment := 500, monthly_income := 800, interest_rate := 1 / 25
    mart_share := 5000, kerli_share := 5000 }

/-- Variant of `r9a` with different mortgage balance, payment and rate. -/
def r9b : RentalProperty :=
  { incl := true, sell := true, sale_year := 2030, mortgage_2026 := 999999
    monthly_payment := 123, monthly_income := 800, interest_rate := 9 / 10
    mart_share := 5000, kerli_share := 5000 }

/-- C9 witness: at a concrete configuration the two runs coincide although
the three mortgage fields differ. -/
theorem c9_witness :
    r9a.incl = r9b.incl ∧ r9a.sale_year = r9b.sale_year ∧
      r9a.mortgage_2026 ≠ r9b.mortgage_2026 ∧
      runPaths [] (some r9a) p3 (fun _ => 0) 2 0 =
        runPaths [] (some r9b) p3 (fun _ => 0) 2 0 ∧
      runSimulation [] (some r9a) p3 (fun _ => 0) 2 0 =
        runSimulation [] (some r9b) p3 (fun _ => 0) 2 0 := by
  have h := c9_mortgage_independent [] p3 (fun _ => 0) 2 0 r9a r9b
    rfl rfl rfl rfl rfl rfl
  exact ⟨rfl, rfl, by norm_num [r9a, r9b], h.1, h.2⟩

/-- Per-person monthly contribution inside `calculate_loan_evolution`, with
the same stop/scale policy as the path engine applied to the single amount. -/
def loanMonthly (monthly : ℚ) (endY changeY : Option ℤ) (factor : ℚ)
    (year : ℤ) : ℚ :=
  if optYearLE endY year then 0
  else if optYearLE changeY year then monthly * factor
  else monthly

/-- Lookup `contrib_map.get(person, 0)` for `contrib_map = {c.name: c.monthly_amount
for c in contributions}`: the last entry for a name wins, absent names give 0. -/
def contribLookup (cs : List Contribution) (k : String) : ℚ :=
  match cs.reverse.find? (fun c => c.name == k) with
  | some c => c.monthly_amount
  | none => 0

/-- Assignment `current_loans[n] -= a` guarded by `n in current_loans`. -/
def subtractShare (loans : List (String × ℚ)) (n : String) (a : ℚ) :
    List (String × ℚ) :=
  if n ∈ loans.map Prod.fst then
    loans.map (fun kv => if kv.1 = n then (kv.1, kv.2 - a) else kv)
  else loans

/-- Step 2 of `calculate_loan_evolution`: in the sale year of an included,
financed-by-pool rental, subtract Mart's and Kerli's configured shares from
their loans when those participants exist. -/
def rentalRepay (rental : Option RentalProperty) (year : ℤ)
    (loans : List (String × ℚ)) : List (String × ℚ) :=
  match rental with
  | some r =>
    if r.incl ∧ r.sell ∧ year = r.sale_year then
      subtractShare (subtractShare loans "Mart" r.mart_share) "Kerli" r.kerli_share
    else loans
  | none => loans

/-- Step 3 of `calculate_loan_evolution`: when the year's payout is positive
and total loans are positive, scale every loan by
`max 0 ((total − payout) / total)`; otherwise leave the loans unchanged. -/
def loanPaydown (loans : List (String × ℚ)) (w : ℚ) : List (String × ℚ) :=
  if 0 < w then
    if 0 < (loans.map Prod.snd).sum then
      loans.map (fun kv =>
        (kv.1, kv.2 * max 0 (((loans.map Prod.snd).sum - w) / (loans.map Prod.snd).sum)))
    else loans
  else loans

/-- One year of `calculate_loan_evolution`, in source order: accrue each
person's (policy-adjusted) contributions for the year's active months, apply
the rental mortgage-share repayment, then the proportional loan paydown in
"loan" mode when a payout for this year index exists. -/
def loanYearStep (contribs : List Contribution) (rental : Option RentalProperty)
    (start_month : ℕ) (firstYear : ℤ) (payouts : List ℚ)
    (withdrawal_mode : String) (endY changeY : Option ℤ) (factor : ℚ)
    (yi : ℕ) (year : ℤ) (loans : List (String × ℚ)) : List (String × ℚ) :=
  let months : ℕ := if year = firstYear then 12 - start_month + 1 else 12
  let l1 := loans.map (fun kv =>
    (kv.1, kv.2 + loanMonthly (contribLookup contribs kv.1) endY changeY factor year
      * (months : ℚ)))
  let l2 := rentalRepay rental year l1
  if withdrawal_mode = "loan" ∧ payouts ≠ [] ∧ yi < payouts.length then
    loanPaydown l2 (payouts.getD yi 0)
  else l2

/-- The per-year snapshots of the mutated loan dictionary. -/
def loanSnapshotsAux (step : ℕ → ℤ → List (String × ℚ) → List (String × ℚ)) :
    ℕ → List ℤ → List (String × ℚ) → List (List (String × ℚ))
  | _, [], _ => []
  | yi, y :: ys, loans =>
    let l2 := step yi y loans
    l2 :: loanSnapshotsAux step (yi + 1) ys l2

/-- Dictionary lookup on an association list (first occurrence). -/
def lookupLoan (loans : List (String × ℚ)) (k : String) : Option ℚ :=
  (loans.find? (fun kv => kv.1 == k)).map Prod.snd

/-- Embedding of `calculate_loan_evolution` from `monte_carlo.py`: evolve the starting
loans year by year and return, per starting participant, the list of yearly
snapshots of that participant's balance. -/
def calculate_loan_evolution (starting : List (String × ℚ))
    (contribs : List Contribution) (years : List ℤ)
    (rental : Option RentalProperty) (start_month : ℕ) (payouts : List ℚ)
    (withdrawal_mode : String) (endY changeY : Option ℤ) (factor : ℚ) :
    List (String × List ℚ) :=
  let snaps := loanSnapshotsAux
    (loanYearStep contribs rental start_month (years.headD 0) payouts
      withdrawal_mode endY changeY factor) 0 years starting
  starting.map (fun kv => (kv.1, snaps.map (fun l => (lookupLoan l kv.1).getD 0)))

/-- Scaling every value of an association list scales the value sum. -/
theorem sum_map_scale (l : List (String × ℚ)) (c : ℚ) :
    ((l.map (fun kv => (kv.1, kv.2 * c))).map Prod.snd).sum =
      (l.map Prod.snd).sum * c := by
  induction l with
  | nil => simp
  | cons h t ih =>
    simp only [List.map_cons, List.sum_cons, ih]
    ring

/-- C4: in the proportional paydown step with a positive payout, when total
loans are positive every loan is scaled by `max 0 ((total − payout) / total)`,
so the total after the step equals total × factor, is non-negative and does
not exceed the total before; when the total is non-positive the step leaves
the loans unchanged (no division happens). -/
theorem c4_loan_paydown (loans : List (String × ℚ)) (w : ℚ) (hw : 0 < w) :
    (0 < (loans.map Prod.snd).sum →
        loanPaydown loans w = loans.map (fun kv =>
          (kv.1, kv.2 * max 0 (((loans.map Prod.snd).sum - w) / (loans.map Prod.snd).sum))) ∧
        ((loanPaydown loans w).map Prod.snd).sum =
          (loans.map Prod.snd).sum *
            max 0 (((loans.map Prod.snd).sum - w) / (loans.map Prod.snd).sum) ∧
        0 ≤ ((loanPaydown loans w).map Prod.snd).sum ∧
        ((loanPaydown loans w).map Prod.snd).sum ≤ (loans.map Prod.snd).sum) ∧
      ((loans.map Prod.snd).sum ≤ 0 → loanPaydown loans w = loans) := by
  constructor
  · intro hT
    have heq : loanPaydown loans w = loans.map (fun kv =>
        (kv.1, kv.2 * max 0 (((loans.map Prod.snd).sum - w) / (loans.map Prod.snd).sum))) := by
      unfold loanPaydown
      rw [if_pos hw, if_pos hT]
    have hsum : ((loanPaydown loans w).map Prod.snd).sum =
        (loans.map Prod.snd).sum *
          max 0 (((loans.map Prod.snd).sum - w) / (loans.map Prod.snd).sum) := by
      rw [heq, sum_map_scale]
    refine ⟨heq, hsum, ?_, ?_⟩
    · rw [hsum]
      exact mul_nonneg (le_of_lt hT) (le_max_left _ _)
    · rw [hsum]
      have hfac : max 0 (((loans.map Prod.snd).sum - w) / (loans.map Prod.snd).sum) ≤ 1 := by
        apply max_le
        · norm_num
        · rw [div_le_one hT]
          linarith
      calc (loans.map Prod.snd).sum *
            max 0 (((loans.map Prod.snd).sum - w) / (loans.map Prod.snd).sum)
          ≤ (loans.map Prod.snd).sum * 1 :=
            mul_le_mul_of_nonneg_left hfac (le_of_lt hT)
        _ = (loans.map Prod.snd).sum := mul_one _
  · intro hT
    unfold loanPaydown
    rw [if_pos hw, if_neg (not_lt.mpr hT)]

/-- C4 witness loans. -/
def loans4 : List (String × ℚ) := [("Mart", 100), ("Kerli", 300)]

/-- C4 witness: with loans 100 and 300 and payout 100 the factor is 3/4 and
the paydown gives exactly the proportionally scaled loans. -/
theorem c4_witness :
    (0 : ℚ) < 100 ∧ (0 : ℚ) < (loans4.map Prod.snd).sum ∧
      loanPaydown loans4 100 = [("Mart", 75), ("Kerli", 225)] ∧
      ((loanPaydown loans4 100).map Prod.snd).sum = 300 := by
  have h := (c4_loan_paydown loans4 100 (by norm_num)).1 (by norm_num [loans4])
  have hmax : max (0 : ℚ) (((loans4.map Prod.snd).sum - 100) / (loans4.map Prod.snd).sum)
      = 3 / 4 := by
    rw [max_eq_right (by norm_num [loans4])]
    norm_num [loans4]
  refine ⟨by norm_num, by norm_num [loans4], ?_, ?_⟩
  · rw [h.1, hmax]
    norm_num [loans4]
  · rw [h.2.1, hmax]
    norm_num [loans4]

/-- Lookup on a cons cell. -/
theorem lookupLoan_cons (x : String) (v : ℚ) (t : List (String × ℚ)) (k : String) :
    lookupLoan ((x, v) :: t) k = if x = k then some v else lookupLoan t k := by
  unfold lookupLoan
  by_cases h : x = k
  · rw [List.find?_cons_of_pos t (by simp [h]), if_pos h]
    rfl
  · rw [List.find?_cons_of_neg t (by simp [h]), if_neg h]

/-- Effect of the guarded per-key subtraction on lookups, unguarded form. -/
theorem lookup_map_adjust (loans : List (String × ℚ)) (n k : String) (a : ℚ) :
    lookupLoan (loans.map (fun kv => if kv.1 = n then (kv.1, kv.2 - a) else kv)) k =
      if k = n then (lookupLoan loans k).map (fun v => v - a)
      else lookupLoan loans k := by
  by_cases hkn : k = n
  · subst hkn
    rw [if_pos rfl]
    induction loans with
    | nil => simp [lookupLoan]
    | cons kv t ih =>
      obtain ⟨x, v⟩ := kv
      simp only [List.map_cons]
      by_cases h1 : x = k
      · subst h1
        simp [lookupLoan_cons]
      · simp [lookupLoan_cons, h1, ih]
  · rw [if_neg hkn]
    induction loans with
    | nil => simp [lookupLoan]
    | cons kv t ih =>
      obtain ⟨x, v⟩ := kv
      simp only [List.map_cons]
      have hnk : ¬(n = k) := fun h => hkn h.symm
      by_cases h1 : x = n
      · subst h1
        simp [lookupLoan_cons, hnk, ih]
      · by_cases h2 : x = k
        · subst h2
          simp [lookupLoan_cons, h1]
        · simp [lookupLoan_cons, h1, h2, ih]

/-- Effect of `subtractShare` on lookups: the named key is reduced by the
share when present (absent stays absent), all other keys are untouched. -/
theorem lookup_subtractShare (loans : List (String × ℚ)) (n k : String) (a : ℚ) :
    lookupLoan (subtractShare loans n a) k =
      if k = n then (lookupLoan loans k).map (fun v => v - a)
      else lookupLoan loans k := by
  unfold subtractShare
  by_cases hmem : n ∈ loans.map Prod.fst
  · rw [if_pos hmem]
    exact lookup_map_adjust loans n k a
  · rw [if_neg hmem]
    by_cases hk : k = n
    · subst hk
      have hfind : loans.find? (fun kv => kv.1 == k) = none :=
        List.find?_eq_none.mpr (fun kv hkv => by
          simp only [beq_iff_eq]
          intro heq
          exact hmem (List.mem_map.mpr ⟨kv, hkv, heq⟩))
      have hnone : lookupLoan loans k = none := by
        unfold lookupLoan
        rw [hfind]
        rfl
      simp [hnone]
    · simp [hk]

/-- C6: in the sale year with a financed-by-pool rental, Mart's and Kerli's
loans are each reduced by the configured share (an absent participant simply
stays absent — no error) and every other participant's balance is unchanged. -/
theorem c6_mortgage_share (r : RentalProperty) (year : ℤ)
    (loans : List (String × ℚ)) (hincl : r.incl = true) (hsell : r.sell = true)
    (hy : year = r.sale_year) :
    lookupLoan (rentalRepay (some r) year loans) "Mart" =
        (lookupLoan loans "Mart").map (fun v => v - r.mart_share) ∧
      lookupLoan (rentalRepay (some r) year loans) "Kerli" =
        (lookupLoan loans "Kerli").map (fun v => v - r.kerli_share) ∧
      ∀ k : String, k ≠ "Mart" → k ≠ "Kerli" →
        lookupLoan (rentalRepay (some r) year loans) k = lookupLoan loans k := by
  have hcond : rentalRepay (some r) year loans =
      subtractShare (subtractShare loans "Mart" r.mart_share) "Kerli" r.kerli_share := by
    simp only [rentalRepay]
    rw [if_pos ⟨hincl, hsell, hy⟩]
  refine ⟨?_, ?_, ?_⟩
  · rw [hcond, lookup_subtractShare, if_neg (by decide), lookup_subtractShare,
      if_pos rfl]
  · rw [hcond, lookup_subtractShare, if_pos rfl, lookup_subtractShare,
      if_neg (by decide)]
  · intro k hkM hkK
    rw [hcond, lookup_subtractShare, if_neg hkK, lookup_subtractShare, if_neg hkM]

/-- C6 witness rental: shares 300 and 400 at sale year 2030. -/
def r6 : RentalProperty :=
  { incl := true, sell := true, sale_year := 2030, mortgage_2026 := 0
    monthly_payment := 0, monthly_income := 0, interest_rate := 0
    mart_share := 300, kerli_share := 400 }

/-- C6 witness loan set: Mart present, Kerli absent, one other participant. -/
def loans6 : List (String × ℚ) := [("Mart", 1000), ("Other", 50)]

/-- C6 witness: Mart's loan is reduced by 300, Kerli's absence is skipped
silently, and the other participant is untouched. -/
theorem c6_witness :
    r6.incl = true ∧ r6.sell = true ∧ (2030 : ℤ) = r6.sale_year ∧
      lookupLoan (rentalRepay (some r6) 2030 loans6) "Mart" = some 700 ∧
      lookupLoan (rentalRepay (some r6) 2030 loans6) "Kerli" = none ∧
      lookupLoan (rentalRepay (some r6) 2030 loans6) "Other" = some 50 := by
  have h := c6_mortgage_share r6 2030 loans6 rfl rfl rfl
  refine ⟨rfl, rfl, rfl, ?_, ?_, ?_⟩
  · rw [h.1]
    have : lookupLoan loans6 "Mart" = some 1000 := by
      simp [lookupLoan, loans6, List.find?]
    rw [this]
    simp [r6]
    norm_num
  · rw [h.2.1]
    have : lookupLoan loans6 "Kerli" = none := by
      simp [lookupLoan, loans6, List.find?]
    rw [this]
    rfl
  · rw [h.2.2 "Other" (by decide) (by decide)]
    simp [lookupLoan, loans6, List.find?]

/-- C7: when both the stop year and the change year are configured and the
year is at or past both, the contribution used is 0 in the path engine and in
the loan calculator — stop takes precedence over scale — and the two
components apply literally the same stop/scale policy to any year. -/
theorem c7_stop_precedence (cs : List Contribution) (e c : ℤ) (f : ℚ)
    (year : ℤ) (he : e ≤ year) (hc : c ≤ year) :
    simContrib cs (some e) (some c) f year = 0 ∧
      (∀ m : ℚ, loanMonthly m (some e) (some c) f year = 0) ∧
      ∀ (endY changeY : Option ℤ) (f2 : ℚ) (y : ℤ) (cs2 : List Contribution),
        simContrib cs2 endY changeY f2 y =
          loanMonthly ((cs2.map Contribution.monthly_amount).sum) endY changeY f2 y := by
  refine ⟨?_, ?_, ?_⟩
  · simp [simContrib, optYearLE, he]
  · intro m
    simp [loanMonthly, optYearLE, he]
  · intro endY changeY f2 y cs2
    rfl

/-- C7 witness: stop year 2030 and change year 2031 both before 2035 give a
zero contribution in both components. -/
theorem c7_witness :
    (2030 : ℤ) ≤ 2035 ∧ (2031 : ℤ) ≤ 2035 ∧
      simContrib [⟨"A", 100⟩] (some 2030) (some 2031) (1 / 2) 2035 = 0 ∧
      loanMonthly 7 (some 2030) (some 2031) (1 / 2) 2035 = 0 := by
  have h := c7_stop_precedence [⟨"A", 100⟩] 2030 2031 (1 / 2) 2035
    (by norm_num) (by norm_num)
  exact ⟨by norm_num, by norm_num, h.1, h.2.1 7⟩

/-- The step `subtractShare` never changes the key sequence. -/
theorem map_fst_subtractShare (loans : List (String × ℚ)) (n : String) (a : ℚ) :
    (subtractShare loans n a).map Prod.fst = loans.map Prod.fst := by
  unfold subtractShare
  split
  · rw [List.map_map]
    apply List.map_congr_left
    intro kv _
    by_cases h : kv.1 = n <;> simp [h]
  · rfl

/-- The step `rentalRepay` never changes the key sequence. -/
theorem map_fst_rentalRepay (rental : Option RentalProperty) (year : ℤ)
    (loans : List (String × ℚ)) :
    (rentalRepay rental year loans).map Prod.fst = loans.map Prod.fst := by
  cases rental with
  | none => rfl
  | some r =>
    simp only [rentalRepay]
    split
    · rw [map_fst_subtractShare, map_fst_subtractShare]
    · rfl

/-- The step `loanPaydown` never changes the key sequence. -/
theorem map_fst_loanPaydown (loans : List (String × ℚ)) (w : ℚ) :
    (loanPaydown loans w).map Prod.fst = loans.map Prod.fst := by
  unfold loanPaydown
  split_ifs <;> simp [List.map_map, Function.comp]

/-- A loan-evolution year step never changes the key sequence. -/
theorem map_fst_loanYearStep (contribs : List Contribution)
    (rental : Option RentalProperty) (sm : ℕ) (fy : ℤ) (payouts : List ℚ)
    (mode : String) (endY changeY : Option ℤ) (factor : ℚ) (yi : ℕ) (year : ℤ)
    (loans : List (String × ℚ)) :
    (loanYearStep contribs rental sm fy payouts mode endY changeY factor yi year
      loans).map Prod.fst = loans.map Prod.fst := by
  simp only [loanYearStep]
  have hl1 : ((loans.map (fun kv =>
      (kv.1, kv.2 + loanMonthly (contribLookup contribs kv.1) endY changeY factor year
        * ((if year = fy then 12 - sm + 1 else 12 : ℕ) : ℚ)))).map Prod.fst)
      = loans.map Prod.fst := by
    rw [List.map_map]
    apply List.map_congr_left
    intro kv _
    rfl
  by_cases hmode : mode = "loan" ∧ payouts ≠ [] ∧ yi < payouts.length
  · rw [if_pos hmode, map_fst_loanPaydown, map_fst_rentalRepay, hl1]
  · rw [if_neg hmode, map_fst_rentalRepay, hl1]

/-- One snapshot is recorded per simulated year. -/
theorem loanSnapshotsAux_length
    (step : ℕ → ℤ → List (String × ℚ) → List (String × ℚ)) :
    ∀ (ys : List ℤ) (yi : ℕ) (loans : List (String × ℚ)),
      (loanSnapshotsAux step yi ys loans).length = ys.length := by
  intro ys
  induction ys with
  | nil => intro yi loans; rfl
  | cons y t ih =>
    intro yi loans
    simp only [loanSnapshotsAux, List.length_cons, ih]

/-- Appending a contribution for a fresh name does not change any other
name's contribution lookup. -/
theorem contribLookup_append_ne (cs : List Contribution) (c : Contribution)
    (k : String) (hk : k ≠ c.name) :
    contribLookup (cs ++ [c]) k = contribLookup cs k := by
  unfold contribLookup
  rw [List.reverse_append]
  have hcne : (c.name == k) = false := by
    simp only [beq_eq_false_iff_ne]
    exact fun h => hk h.symm
  simp [List.find?_cons, hcne]

/-- A loan-evolution year step ignores contributions from names outside the
loan set. -/
theorem loanYearStep_contrib_ext (contribs : List Contribution) (c : Contribution)
    (rental : Option RentalProperty) (sm : ℕ) (fy : ℤ) (payouts : List ℚ)
    (mode : String) (endY changeY : Option ℤ) (factor : ℚ) (yi : ℕ) (year : ℤ)
    (loans : List (String × ℚ)) (hks : ∀ kv ∈ loans, kv.1 ≠ c.name) :
    loanYearStep (contribs ++ [c]) rental sm fy payouts mode endY changeY factor
        yi year loans =
      loanYearStep contribs rental sm fy payouts mode endY changeY factor
        yi year loans := by
  simp only [loanYearStep]
  have hl1 : loans.map (fun kv =>
      (kv.1, kv.2 + loanMonthly (contribLookup (contribs ++ [c]) kv.1) endY changeY
        factor year * ((if year = fy then 12 - sm + 1 else 12 : ℕ) : ℚ)))
      = loans.map (fun kv =>
      (kv.1, kv.2 + loanMonthly (contribLookup contribs kv.1) endY changeY
        factor year * ((if year = fy then 12 - sm + 1 else 12 : ℕ) : ℚ))) := by
    apply List.map_congr_left
    intro kv hkv
    rw [contribLookup_append_ne contribs c kv.1 (hks kv hkv)]
  rw [hl1]

/-- Snapshot-level lift of `loanYearStep_contrib_ext`. -/
theorem loanSnapshotsAux_contrib_ext (contribs : List Contribution)
    (c : Contribution) (rental : Option RentalProperty) (sm : ℕ) (fy : ℤ)
    (payouts : List ℚ) (mode : String) (endY changeY : Option ℤ) (factor : ℚ) :
    ∀ (ys : List ℤ) (yi : ℕ) (loans : List (String × ℚ)),
      (∀ kv ∈ loans, kv.1 ≠ c.name) →
      loanSnapshotsAux
        (loanYearStep (contribs ++ [c]) rental sm fy payouts mode endY changeY factor)
        yi ys loans =
      loanSnapshotsAux
        (loanYearStep contribs rental sm fy payouts mode endY changeY factor)
        yi ys loans := by
  intro ys
  induction ys with
  | nil => intro yi loans _; rfl
  | cons y t ih =>
    intro yi loans hks
    simp only [loanSnapshotsAux]
    rw [loanYearStep_contrib_ext contribs c rental sm fy payouts mode endY changeY
      factor yi y loans hks]
    have hks2 : ∀ kv ∈ loanYearStep contribs rental sm fy payouts mode endY changeY
        factor yi y loans, kv.1 ≠ c.name := by
      intro kv hkv
      have hmem : kv.1 ∈ (loanYearStep contribs rental sm fy payouts mode endY
          changeY factor yi y loans).map Prod.fst := List.mem_map.mpr ⟨kv, hkv, rfl⟩
      rw [map_fst_loanYearStep] at hmem
      rcases List.mem_map.mp hmem with ⟨kv2, hkv2, heq⟩
      rw [← heq]
      exact hks kv2 hkv2
    rw [ih (yi + 1) _ hks2]

/-- C10: the loan-evolution output has exactly the keys of the starting-loans
mapping, each bound to one balance per simulated year, and a contributor
whose name is not a starting-loans key is ignored entirely. -/
theorem c10_loan_shape (starting : List (String × ℚ)) (contribs : List Contribution)
    (years : List ℤ) (rental : Option RentalProperty) (sm : ℕ) (payouts : List ℚ)
    (mode : String) (endY changeY : Option ℤ) (factor : ℚ)
    (nm : String) (amt : ℚ) (hnm : nm ∉ starting.map Prod.fst) :
    (calculate_loan_evolution starting contribs years rental sm payouts mode endY
        changeY factor).map Prod.fst = starting.map Prod.fst ∧
      (∀ kv ∈ calculate_loan_evolution starting contribs years rental sm payouts
        mode endY changeY factor, kv.2.length = years.length) ∧
      calculate_loan_evolution starting (contribs ++ [⟨nm, amt⟩]) years rental sm
          payouts mode endY changeY factor =
        calculate_loan_evolution starting contribs years rental sm payouts mode
          endY changeY factor := by
  refine ⟨?_, ?_, ?_⟩
  · unfold calculate_loan_evolution
    rw [List.map_map]
    apply List.map_congr_left
    intro kv _
    rfl
  · intro kv hkv
    unfold calculate_loan_evolution at hkv
    rcases List.mem_map.mp hkv with ⟨kv0, hkv0, heq⟩
    rw [← heq]
    simp [loanSnapshotsAux_length]
  · unfold calculate_loan_evolution
    rw [loanSnapshotsAux_contrib_ext contribs ⟨nm, amt⟩ rental sm (years.headD 0)
      payouts mode endY changeY factor years 0 starting ?_]
    intro kv hkv
    intro heq
    exact hnm (List.mem_map.mpr ⟨kv, hkv, heq⟩)

/-- C10 witness: starting loans for A only, contributor B is ignored; the
output has key A with one entry per year. -/
theorem c10_witness :
    ("B" ∉ ([("A", (10 : ℚ))] : List (String × ℚ)).map Prod.fst) ∧
      (calculate_loan_evolution [("A", 10)] [⟨"A", 5⟩] [2026, 2027] none 1 []
          "dividend" none none 1).map Prod.fst = [("A", (10 : ℚ))].map Prod.fst ∧
      (∀ kv ∈ calculate_loan_evolution [("A", 10)] [⟨"A", 5⟩] [2026, 2027] none 1 []
          "dividend" none none 1, kv.2.length = [(2026 : ℤ), 2027].length) ∧
      calculate_loan_evolution [("A", 10)] ([⟨"A", 5⟩] ++ [⟨"B", 7⟩]) [2026, 2027]
          none 1 [] "dividend" none none 1 =
        calculate_loan_evolution [("A", 10)] [⟨"A", 5⟩] [2026, 2027] none 1 []
          "dividend" none none 1 := by
  have h := c10_loan_shape [("A", 10)] [⟨"A", 5⟩] [2026, 2027] none 1 []
    "dividend" none none 1 "B" 7 (by simp)
  exact ⟨by simp, h.1, h.2.1, h.2.2⟩
